import Mathlib

/-!
Verification of the aggregation and decision engine of
`dbus-aggregate-smartshunts.py`: the field combiners and safety selectors,
the remaining-time estimator, the device-inclusion policy, the discovery
state machine, and the single-flight update orchestrator.  Numeric D-Bus
values are modelled as rationals; an absent reading is `Option.none`.
-/

namespace AggShunts

/-- A value as published on the bus: a number, the empty-array sentinel `[]`
(used by the service where a physical shunt would publish an empty array),
or the invalid/`None` value.  The three are distinct on the wire. -/
inductive BusVal where
  | num (q : ℚ)
  | empty
  | none
deriving Repr, DecidableEq

/-- Python `min(list)` on a non-empty list (`0` as out-of-domain junk on `[]`,
never reached: every use site guards non-emptiness as the source does). -/
def listMin : List ℚ → ℚ
  | [] => 0
  | v :: vs => vs.foldl min v

/-- Python `max(list)` on a non-empty list (junk `0` on `[]`, unreached). -/
def listMax : List ℚ → ℚ
  | [] => 0
  | v :: vs => vs.foldl max v

/-- `sum(list) / len(list)`: the arithmetic mean of a list of readings. -/
def listMean (l : List ℚ) : ℚ := l.sum / l.length

/-- Python `any(flags)` over numeric alarm flags: true iff some flag is
truthy, i.e. non-zero. -/
def anyActive (l : List ℚ) : Bool := l.any (fun x => decide (x ≠ 0))

/-- Voltage safety selection from `_update` (source lines 1194-1223): with no
readings report `0`; with both a low- and a high-voltage alarm active report
`min` or `max`, whichever deviates more from the nominal 13.0 V (`max` on a
tie); with only a low alarm report `min`; with only a high alarm report
`max`; with no alarm report the arithmetic mean. -/
def selectVoltage (readings lowAlarms highAlarms : List ℚ) : ℚ :=
  match readings with
  | [] => 0
  | v :: vs =>
    let minVoltage := listMin (v :: vs)
    let maxVoltage := listMax (v :: vs)
    let avgVoltage := listMean (v :: vs)
    let lowActive := anyActive lowAlarms
    let highActive := anyActive highAlarms
    if lowActive && highActive then
      let nominal : ℚ := 13
      let lowDeviation := |minVoltage - nominal|
      let highDeviation := |maxVoltage - nominal|
      if lowDeviation > highDeviation then minVoltage else maxVoltage
    else if lowActive then minVoltage
    else if highActive then maxVoltage
    else avgVoltage

theorem foldl_min_mem (vs : List ℚ) (v : ℚ) : vs.foldl min v ∈ v :: vs := by
  induction vs generalizing v with
  | nil => simp
  | cons a vs ih =>
    have h := ih (min v a)
    simp only [List.foldl_cons]
    rcases List.mem_cons.1 h with h1 | h1
    · rcases min_choice v a with hc | hc
      · rw [h1, hc]; simp
      · rw [h1, hc]; simp
    · simp [List.mem_cons, h1]

theorem foldl_min_le (vs : List ℚ) : ∀ (v : ℚ), ∀ x ∈ v :: vs, vs.foldl min v ≤ x := by
  induction vs with
  | nil => intro v x hx; simp at hx; simp [hx]
  | cons a vs ih =>
    intro v x hx
    simp only [List.foldl_cons]
    rcases List.mem_cons.1 hx with h1 | h1
    · rw [h1]
      exact le_trans (ih (min v a) (min v a) (List.mem_cons_self _ _)) (min_le_left _ _)
    · rcases List.mem_cons.1 h1 with h2 | h2
      · rw [h2]
        exact le_trans (ih (min v a) (min v a) (List.mem_cons_self _ _)) (min_le_right _ _)
      · exact ih (min v a) x (List.mem_cons_of_mem _ h2)

theorem foldl_max_mem (vs : List ℚ) (v : ℚ) : vs.foldl max v ∈ v :: vs := by
  induction vs generalizing v with
  | nil => simp
  | cons a vs ih =>
    have h := ih (max v a)
    simp only [List.foldl_cons]
    rcases List.mem_cons.1 h with h1 | h1
    · rcases max_choice v a with hc | hc
      · rw [h1, hc]; simp
      · rw [h1, hc]; simp
    · simp [List.mem_cons, h1]

theorem foldl_max_ge (vs : List ℚ) : ∀ (v : ℚ), ∀ x ∈ v :: vs, x ≤ vs.foldl max v := by
  induction vs with
  | nil => intro v x hx; simp at hx; simp [hx]
  | cons a vs ih =>
    intro v x hx
    simp only [List.foldl_cons]
    rcases List.mem_cons.1 hx with h1 | h1
    · rw [h1]
      exact le_trans (le_max_left _ _) (ih (max v a) (max v a) (List.mem_cons_self _ _))
    · rcases List.mem_cons.1 h1 with h2 | h2
      · rw [h2]
        exact le_trans (le_max_right _ _) (ih (max v a) (max v a) (List.mem_cons_self _ _))
      · exact ih (max v a) x (List.mem_cons_of_mem _ h2)

theorem listMin_mem (l : List ℚ) (h : l ≠ []) : listMin l ∈ l := by
  cases l with
  | nil => exact absurd rfl h
  | cons v vs => exact foldl_min_mem vs v

theorem listMin_le (l : List ℚ) : ∀ x ∈ l, listMin l ≤ x := by
  cases l with
  | nil => intro x hx; simp at hx
  | cons v vs => exact foldl_min_le vs v

theorem listMax_mem (l : List ℚ) (h : l ≠ []) : listMax l ∈ l := by
  cases l with
  | nil => exact absurd rfl h
  | cons v vs => exact foldl_max_mem vs v

theorem le_listMax (l : List ℚ) : ∀ x ∈ l, x ≤ listMax l := by
  cases l with
  | nil => intro x hx; simp at hx
  | cons v vs => exact foldl_max_ge vs v

/-- C1.  Voltage safety selection in an aggregation pass: an empty reading
list yields 0; with only low-voltage alarms active the output is the minimum
reading (characterised order-independently: it is a reading and is at most
every reading); with only high-voltage alarms the maximum; with both, the one
of min/max whose absolute deviation from the nominal 13.0 V is strictly
larger; with no alarm, the arithmetic mean of the readings. -/
theorem voltage_selector_spec (l la ha : List ℚ) (hne : l ≠ []) :
    selectVoltage [] la ha = 0
  ∧ (anyActive la = true → anyActive ha = false →
       selectVoltage l la ha ∈ l ∧ ∀ x ∈ l, selectVoltage l la ha ≤ x)
  ∧ (anyActive la = false → anyActive ha = true →
       selectVoltage l la ha ∈ l ∧ ∀ x ∈ l, x ≤ selectVoltage l la ha)
  ∧ (anyActive la = true → anyActive ha = true →
       (|listMin l - 13| > |listMax l - 13| → selectVoltage l la ha = listMin l)
     ∧ (|listMax l - 13| > |listMin l - 13| → selectVoltage l la ha = listMax l))
  ∧ (anyActive la = false → anyActive ha = false →
       selectVoltage l la ha = l.sum / l.length) := by
  obtain ⟨v, vs, rfl⟩ : ∃ v vs, l = v :: vs := by
    cases l with
    | nil => exact absurd rfl hne
    | cons v vs => exact ⟨v, vs, rfl⟩
  refine ⟨rfl, ?_, ?_, ?_, ?_⟩
  · intro hla hha
    have : selectVoltage (v :: vs) la ha = listMin (v :: vs) := by
      simp [selectVoltage, hla, hha]
    rw [this]
    exact ⟨listMin_mem _ hne, listMin_le _⟩
  · intro hla hha
    have : selectVoltage (v :: vs) la ha = listMax (v :: vs) := by
      simp [selectVoltage, hla, hha]
    rw [this]
    exact ⟨listMax_mem _ hne, le_listMax _⟩
  · intro hla hha
    constructor
    · intro hdev
      simp [selectVoltage, hla, hha, hdev]
    · intro hdev
      have hnot : ¬ (|listMin (v :: vs) - 13| > |listMax (v :: vs) - 13|) :=
        not_lt_of_gt hdev
      simp [selectVoltage, hla, hha, hnot]
  · intro hla hha
    simp [selectVoltage, hla, hha, listMean]

/-- C1 witness: the spec's own tie-break example.  Readings `[11.5, 14.8]`
with both alarm lists active: deviations from 13.0 are 1.5 and 1.8, so the
selector reports 14.8. -/
theorem voltage_selector_spec_witness :
    ([11.5, 14.8] : List ℚ) ≠ []
  ∧ selectVoltage [11.5, 14.8] [1] [1] = 14.8 := by
  have h := voltage_selector_spec [11.5, 14.8] [1] [1] (by decide)
  refine ⟨by decide, ?_⟩
  have h2 := (h.2.2.2.1 (by decide) (by decide)).2
  have hmin : listMin [(11.5 : ℚ), 14.8] = 11.5 := by
    simp [listMin, min_def]; norm_num
  have hmax : listMax [(11.5 : ℚ), 14.8] = 14.8 := by
    simp [listMax, max_def]; norm_num
  rw [hmin, hmax] at h2
  have e1 : |(11.5 : ℚ) - 13| = 1.5 := by
    rw [abs_of_nonpos (by norm_num)]; norm_num
  have e2 : |(14.8 : ℚ) - 13| = 1.8 := by
    rw [abs_of_nonneg (by norm_num)]; norm_num
  exact h2 (by rw [e1, e2]; norm_num)

/-- Temperature safety selection from `_update` (source lines 1229-1275):
with no readings report `None`; `low_temp_alert` iff `min < LOW_TEMP` and
`high_temp_alert` iff `max > HIGH_TEMP` (the run-time configurable
thresholds); with both alerts report whichever of min/max is closer to its
fixed critical bound (0 °C for cold, 45 °C for hot, `max` on a tie); with
only a low alert report min, only a high alert max, neither the mean. -/
def selectTemperature (readings : List ℚ) (lowTemp highTemp : ℚ) : Option ℚ :=
  match readings with
  | [] => Option.none
  | t :: ts =>
    let minTemp := listMin (t :: ts)
    let maxTemp := listMax (t :: ts)
    let avgTemperature := listMean (t :: ts)
    let lowTempAlert := decide (minTemp < lowTemp)
    let highTempAlert := decide (maxTemp > highTemp)
    if lowTempAlert && highTempAlert then
      let lowSeverity := |minTemp - 0|
      let highSeverity := |maxTemp - 45|
      if lowSeverity < highSeverity then Option.some minTemp else Option.some maxTemp
    else if lowTempAlert then Option.some minTemp
    else if highTempAlert then Option.some maxTemp
    else Option.some avgTemperature

/-- C5.  Temperature safety selection: empty reading list yields `None`; a
cold alert holds iff the minimum is strictly below the configured cold
threshold and a hot alert iff the maximum is strictly above the configured
hot threshold; with only a cold alert the minimum is reported, with only a
hot alert the maximum, with both whichever of `|min - 0|` and `|max - 45|`
is strictly smaller (fixed critical bounds independent of the thresholds),
and with neither the arithmetic mean. -/
theorem temperature_selector_spec (l : List ℚ) (lowT highT : ℚ) (hne : l ≠ []) :
    selectTemperature [] lowT highT = Option.none
  ∧ (listMin l < lowT → ¬ listMax l > highT →
       selectTemperature l lowT highT = Option.some (listMin l))
  ∧ (¬ listMin l < lowT → listMax l > highT →
       selectTemperature l lowT highT = Option.some (listMax l))
  ∧ (listMin l < lowT → listMax l > highT →
       (|listMin l - 0| < |listMax l - 45| →
          selectTemperature l lowT highT = Option.some (listMin l))
     ∧ (|listMax l - 45| < |listMin l - 0| →
          selectTemperature l lowT highT = Option.some (listMax l)))
  ∧ (¬ listMin l < lowT → ¬ listMax l > highT →
       selectTemperature l lowT highT = Option.some (listMean l)) := by
  obtain ⟨t, ts, rfl⟩ : ∃ t ts, l = t :: ts := by
    cases l with
    | nil => exact absurd rfl hne
    | cons t ts => exact ⟨t, ts, rfl⟩
  refine ⟨rfl, ?_, ?_, ?_, ?_⟩
  · intro hlo hhi
    simp [selectTemperature, hlo, hhi]
  · intro hlo hhi
    simp [selectTemperature, hlo, hhi]
  · intro hlo hhi
    constructor
    · intro hsev
      rw [sub_zero] at hsev
      simp [selectTemperature, hlo, hhi, hsev]
    · intro hsev
      rw [sub_zero] at hsev
      have hnot : ¬ (|listMin (t :: ts)| < |listMax (t :: ts) - 45|) :=
        not_lt_of_gt hsev
      simp [selectTemperature, hlo, hhi, hnot]
  · intro hlo hhi
    simp [selectTemperature, hlo, hhi]

/-- C5 witness: readings `[-5, 50]` with thresholds 10 / 40.5: both alerts
active, `|min - 0| = 5 < 5 = |max - 45|` is false (tie) — use instead
`[-3, 50]`: severities 3 and 5, so the colder reading −3 is reported; and a
single reading 25 inside the thresholds reports the mean 25. -/
theorem temperature_selector_spec_witness :
    ([-3, 50] : List ℚ) ≠ []
  ∧ selectTemperature [-3, 50] 10 40.5 = Option.some (-3)
  ∧ selectTemperature [25] 10 40.5 = Option.some 25 := by
  have h := temperature_selector_spec [-3, 50] 10 40.5 (by decide)
  have hmin : listMin [(-3 : ℚ), 50] = -3 := by
    simp [listMin, min_def]; norm_num
  have hmax : listMax [(-3 : ℚ), 50] = 50 := by
    simp [listMax, max_def]; norm_num
  have h4 := h.2.2.2.1
  rw [hmin, hmax] at h4
  refine ⟨by decide, ?_, ?_⟩
  · have e1 : |(-3 : ℚ) - 0| = 3 := by
      rw [abs_of_nonpos (by norm_num)]; norm_num
    have e2 : |(50 : ℚ) - 45| = 5 := by
      rw [abs_of_nonneg (by norm_num)]; norm_num
    exact (h4 (by norm_num) (by norm_num)).1 (by rw [e1, e2]; norm_num)
  · have h5 := temperature_selector_spec [25] 10 40.5 (by decide)
    have hmin1 : listMin [(25 : ℚ)] = 25 := by simp [listMin]
    have hmax1 : listMax [(25 : ℚ)] = 25 := by simp [listMax]
    have hmean1 : listMean [(25 : ℚ)] = 25 := by simp [listMean]
    have h6 := h5.2.2.2.2
    rw [hmin1, hmax1, hmean1] at h6
    exact h6 (by norm_num) (by norm_num)

/-- Remaining-time estimation from `_update` (source lines 1279-1304): the
remaining capacity is `TOTAL_CAPACITY * soc / 100`; while the summed current
is strictly negative (discharging) the time to go is
`-3600 * capacity / total_current` seconds, otherwise `None`. -/
def computeTimeToGo (totalCapacity soc totalCurrent : ℚ) : Option ℚ :=
  let capacity := totalCapacity * soc / 100
  if totalCurrent < 0 then
    if totalCurrent ≠ 0 then Option.some (-3600 * capacity / totalCurrent)
    else Option.none
  else Option.none

/-- Publication of the time to go (source line 1390): `None` is published as
the empty-array sentinel `[]`, a number as itself. -/
def publishTimeToGo : Option ℚ → BusVal
  | Option.some t => BusVal.num t
  | Option.none => BusVal.empty

/-- C6.  Remaining-time estimation: with total current strictly negative the
published time to go equals `-3600 * (capacity * soc / 100) / current`
seconds; with total current ≥ 0 the estimate is `None` and is published as
the empty sentinel `[]`, which is neither the number 0 nor the invalid
value. -/
theorem time_to_go_spec (totalCapacity soc totalCurrent : ℚ) :
    (totalCurrent < 0 →
       computeTimeToGo totalCapacity soc totalCurrent
         = Option.some (-3600 * (totalCapacity * soc / 100) / totalCurrent)
     ∧ publishTimeToGo (computeTimeToGo totalCapacity soc totalCurrent)
         = BusVal.num (-3600 * (totalCapacity * soc / 100) / totalCurrent))
  ∧ (0 ≤ totalCurrent →
       computeTimeToGo totalCapacity soc totalCurrent = Option.none
     ∧ publishTimeToGo (computeTimeToGo totalCapacity soc totalCurrent)
         = BusVal.empty
     ∧ BusVal.empty ≠ BusVal.num 0 ∧ BusVal.empty ≠ BusVal.none) := by
  constructor
  · intro hneg
    have hz : totalCurrent ≠ 0 := ne_of_lt hneg
    constructor
    · simp [computeTimeToGo, hneg, hz]
    · simp [computeTimeToGo, publishTimeToGo, hneg, hz]
  · intro hpos
    have hnot : ¬ totalCurrent < 0 := not_lt_of_ge hpos
    refine ⟨by simp [computeTimeToGo, hnot], by simp [computeTimeToGo, publishTimeToGo, hnot], by decide, by decide⟩

/-- C6 witness: the spec's numbers.  Capacity 200 Ah, SoC 50 %, current
−10 A gives 36000 s; current +5 A gives `None`, published as `[]`. -/
theorem time_to_go_spec_witness :
    computeTimeToGo 200 50 (-10) = Option.some 36000
  ∧ computeTimeToGo 200 50 5 = Option.none
  ∧ publishTimeToGo (computeTimeToGo 200 50 5) = BusVal.empty := by
  have h1 := (time_to_go_spec 200 50 (-10)).1 (by norm_num)
  have h2 := (time_to_go_spec 200 50 5).2 (by norm_num)
  refine ⟨?_, h2.1, h2.2.1⟩
  rw [h1.1]
  norm_num

/-- One device's readings as fetched fresh from the bus monitor during a
pass (`_update`, source lines 1057-1172): each field is the value of the
corresponding monitored path, or `Option.none` when absent. -/
structure Snapshot where
  voltage : Option ℚ
  current : Option ℚ
  power : Option ℚ
  soc : Option ℚ
  consumedAh : Option ℚ
  temperature : Option ℚ
  timeToGo : Option ℚ
  alarmGeneral : Option ℚ
  alarmLowVoltage : Option ℚ
  alarmHighVoltage : Option ℚ
  alarmLowSoc : Option ℚ
  alarmHighTemp : Option ℚ
  alarmLowTemp : Option ℚ
  histChargeCycles : Option ℚ
  histTotalAhDrawn : Option ℚ
  histMinVoltage : Option ℚ
  histMaxVoltage : Option ℚ
  histTimeSinceFull : Option ℚ
  histAutoSyncs : Option ℚ
  histLvAlarms : Option ℚ
  histHvAlarms : Option ℚ
  histLastDischarge : Option ℚ
  histAvgDischarge : Option ℚ
  histChargedEnergy : Option ℚ
  histDischargedEnergy : Option ℚ
  histFullDischarges : Option ℚ
  histDeepestDischarge : Option ℚ
  histMinStarter : Option ℚ
  histMaxStarter : Option ℚ
  vedHexChecksum : Option ℚ
  vedHexInvalidChar : Option ℚ
  vedHexUnfinished : Option ℚ
  vedTextChecksum : Option ℚ
  vedTextParse : Option ℚ
  vedTextUnfinished : Option ℚ

/-- A discovered shunt: its service name together with the snapshot an
aggregation pass reads from it. -/
structure Shunt where
  service : String
  snapshot : Snapshot

/-- The switch dictionary `self.shunt_switches`: service name to the manual
`enabled` flag of the switch created for that device. -/
abbrev Switches := List (String × Bool)

/-- The per-device skip test of the update loop (source lines 1052-1055): a
shunt is skipped only when it has an entry in `shunt_switches` whose
`enabled` flag is false; a device with no created switch is processed. -/
def isIncluded (switches : Switches) (service : String) : Bool :=
  match List.lookup service switches with
  | Option.some e => e
  | Option.none => true

/-- The read loop of `_update`, restricted to one field: for each shunt in
order, skip it when its switch is disabled, and otherwise append the field's
reading when it is present. -/
def collectReadings (switches : Switches) (f : Snapshot → Option ℚ) : List Shunt → List ℚ
  | [] => []
  | sh :: rest =>
    if isIncluded switches sh.service then
      match f sh.snapshot with
      | Option.some v => v :: collectReadings switches f rest
      | Option.none => collectReadings switches f rest
    else collectReadings switches f rest

/-- The read loop for the fields guarded by `is not None and value > 0`
(time-to-go, source line 1082, and the two starter-voltage history fields,
source lines 1163-1172): a reading joins the list only when present and
strictly positive. -/
def collectPosReadings (switches : Switches) (f : Snapshot → Option ℚ) : List Shunt → List ℚ
  | [] => []
  | sh :: rest =>
    if isIncluded switches sh.service then
      match f sh.snapshot with
      | Option.some v =>
        if 0 < v then v :: collectPosReadings switches f rest
        else collectPosReadings switches f rest
      | Option.none => collectPosReadings switches f rest
    else collectPosReadings switches f rest

/-- The VE.Direct error-counter loop (source lines 1356-1369): for each
enabled shunt append `value or 0`, i.e. the reading with both an absent and
a zero value contributing 0. -/
def collectOrZero (switches : Switches) (f : Snapshot → Option ℚ) : List Shunt → List ℚ
  | [] => []
  | sh :: rest =>
    if isIncluded switches sh.service then
      (f sh.snapshot).getD 0 :: collectOrZero switches f rest
    else collectOrZero switches f rest

/-- `max(list) if list else 0`: the boolean-or / max-with-zero-default
combiner used for the live alarms and several history counters. -/
def maxOr0 (l : List ℚ) : ℚ := if l = [] then 0 else listMax l

/-- `min(list) if list else 0`: used for the deepest discharge. -/
def minOr0 (l : List ℚ) : ℚ := if l = [] then 0 else listMin l

/-- `max(list) if list else None`. -/
def maxOrNone (l : List ℚ) : Option ℚ := if l = [] then Option.none else Option.some (listMax l)

/-- `min(list) if list else None`. -/
def minOrNone (l : List ℚ) : Option ℚ := if l = [] then Option.none else Option.some (listMin l)

/-- `min(list) if list else []`: the starter-voltage aggregation, whose
empty case publishes the empty-array sentinel (source lines 1343-1346). -/
def minOrEmpty (l : List ℚ) : BusVal := if l = [] then BusVal.empty else BusVal.num (listMin l)

/-- `max(list) if list else []`. -/
def maxOrEmpty (l : List ℚ) : BusVal := if l = [] then BusVal.empty else BusVal.num (listMax l)

/-- The full set of aggregate values committed to the bus in one pass
(the `with self._dbusservice` block, source lines 1379-1423). -/
structure AggOutputs where
  dcVoltage : ℚ
  dcCurrent : ℚ
  dcPower : ℚ
  dcTemperature : Option ℚ
  soc : ℚ
  consumedAmphours : ℚ
  timeToGo : BusVal
  alarmGeneral : ℚ
  alarmLowVoltage : ℚ
  alarmHighVoltage : ℚ
  alarmLowSoc : ℚ
  alarmHighTemp : ℚ
  alarmLowTemp : ℚ
  histChargeCycles : ℚ
  histTotalAhDrawn : ℚ
  histMinVoltage : Option ℚ
  histMaxVoltage : Option ℚ
  histTimeSinceFull : Option ℚ
  histAutoSyncs : ℚ
  histLvAlarms : ℚ
  histHvAlarms : ℚ
  histLastDischarge : ℚ
  histAvgDischarge : ℚ
  histChargedEnergy : ℚ
  histDischargedEnergy : ℚ
  histFullDischarges : ℚ
  histDeepestDischarge : ℚ
  histMinStarter : BusVal
  histMaxStarter : BusVal
  vedHexChecksum : ℚ
  vedHexInvalidChar : ℚ
  vedHexUnfinished : ℚ
  vedTextChecksum : ℚ
  vedTextParse : ℚ
  vedTextUnfinished : ℚ

/-- One successful aggregation pass (`_update`, source lines 1008-1376): the
per-field reading lists of the enabled shunts are combined by the per-field
rules — sums for current/power/consumed-Ah and the energy and lifetime
alarm counters, safety selection for voltage and temperature, average for
SoC (default 50 when no device reports one), max for the live alarms and
cycle/sync counters, min/max for the lifetime voltage extrema, and the
capacity-based time-to-go estimate. -/
def aggregate (totalCapacity : ℚ) (shunts : List Shunt) (switches : Switches)
    (lowTemp highTemp : ℚ) : AggOutputs :=
  let voltageReadings := collectReadings switches Snapshot.voltage shunts
  let totalCurrent := (collectReadings switches Snapshot.current shunts).sum
  let totalPower := (collectReadings switches Snapshot.power shunts).sum
  let socReadings := collectReadings switches Snapshot.soc shunts
  let totalConsumedAh := (collectReadings switches Snapshot.consumedAh shunts).sum
  let temperatureReadings := collectReadings switches Snapshot.temperature shunts
  let alarmGeneralList := collectReadings switches Snapshot.alarmGeneral shunts
  let alarmLowVoltageList := collectReadings switches Snapshot.alarmLowVoltage shunts
  let alarmHighVoltageList := collectReadings switches Snapshot.alarmHighVoltage shunts
  let alarmLowSocList := collectReadings switches Snapshot.alarmLowSoc shunts
  let alarmHighTempList := collectReadings switches Snapshot.alarmHighTemp shunts
  let alarmLowTempList := collectReadings switches Snapshot.alarmLowTemp shunts
  let avgSoc := if socReadings = [] then 50 else listMean socReadings
  let reportedVoltage := selectVoltage voltageReadings alarmLowVoltageList alarmHighVoltageList
  let reportedTemperature := selectTemperature temperatureReadings lowTemp highTemp
  let timeToGo := computeTimeToGo totalCapacity avgSoc totalCurrent
  { dcVoltage := reportedVoltage
    dcCurrent := totalCurrent
    dcPower := totalPower
    dcTemperature := reportedTemperature
    soc := avgSoc
    consumedAmphours := totalConsumedAh
    timeToGo := publishTimeToGo timeToGo
    alarmGeneral := maxOr0 alarmGeneralList
    alarmLowVoltage := maxOr0 alarmLowVoltageList
    alarmHighVoltage := maxOr0 alarmHighVoltageList
    alarmLowSoc := maxOr0 alarmLowSocList
    alarmHighTemp := maxOr0 alarmHighTempList
    alarmLowTemp := maxOr0 alarmLowTempList
    histChargeCycles := maxOr0 (collectReadings switches Snapshot.histChargeCycles shunts)
    histTotalAhDrawn := (collectReadings switches Snapshot.histTotalAhDrawn shunts).sum
    histMinVoltage := minOrNone (collectReadings switches Snapshot.histMinVoltage shunts)
    histMaxVoltage := maxOrNone (collectReadings switches Snapshot.histMaxVoltage shunts)
    histTimeSinceFull := maxOrNone (collectReadings switches Snapshot.histTimeSinceFull shunts)
    histAutoSyncs := maxOr0 (collectReadings switches Snapshot.histAutoSyncs shunts)
    histLvAlarms := (collectReadings switches Snapshot.histLvAlarms shunts).sum
    histHvAlarms := (collectReadings switches Snapshot.histHvAlarms shunts).sum
    histLastDischarge := (collectReadings switches Snapshot.histLastDischarge shunts).sum
    histAvgDischarge :=
      let l := collectReadings switches Snapshot.histAvgDischarge shunts
      if l = [] then 0 else listMean l
    histChargedEnergy := (collectReadings switches Snapshot.histChargedEnergy shunts).sum
    histDischargedEnergy := (collectReadings switches Snapshot.histDischargedEnergy shunts).sum
    histFullDischarges := maxOr0 (collectReadings switches Snapshot.histFullDischarges shunts)
    histDeepestDischarge := minOr0 (collectReadings switches Snapshot.histDeepestDischarge shunts)
    histMinStarter := minOrEmpty (collectPosReadings switches Snapshot.histMinStarter shunts)
    histMaxStarter := maxOrEmpty (collectPosReadings switches Snapshot.histMaxStarter shunts)
    vedHexChecksum := (collectOrZero switches Snapshot.vedHexChecksum shunts).sum
    vedHexInvalidChar := (collectOrZero switches Snapshot.vedHexInvalidChar shunts).sum
    vedHexUnfinished := (collectOrZero switches Snapshot.vedHexUnfinished shunts).sum
    vedTextChecksum := (collectOrZero switches Snapshot.vedTextChecksum shunts).sum
    vedTextParse := (collectOrZero switches Snapshot.vedTextParse shunts).sum
    vedTextUnfinished := (collectOrZero switches Snapshot.vedTextUnfinished shunts).sum }

/-- The static configuration the update orchestrator consults: the
`READ_TRIALS` budget and the auto-detected total capacity. -/
structure Config where
  READ_TRIALS : ℕ
  TOTAL_CAPACITY : ℚ

/-- The aggregator's mutable state as far as `_update` touches it: the
single-flight flag `_updating`, the consecutive read-trial counter
`_readTrials` (initialised to 1), the discovered shunt list, the switch
dictionary, the global discovery gate, the two temperature thresholds
(the `Measurement` values of the threshold switches), and the currently
published aggregate values. -/
structure AggState where
  updating : Bool
  readTrials : ℕ
  shunts : List Shunt
  shuntSwitches : Switches
  discoveryEnabled : Bool
  tempLow : ℚ
  tempHigh : ℚ
  published : AggOutputs

/-- Outcome of one call to `_update`: the state afterwards, how many shunts
were read, how many atomic publish commits happened (the single
`with self._dbusservice` block counts as one), and whether the process
called `sys.exit(1)` (after the configured `TIME_BEFORE_RESTART` delay). -/
structure UpdateResult where
  st : AggState
  reads : ℕ
  publishes : ℕ
  exited : Bool

/-- The shunts an aggregation pass actually reads: those whose switch is
not disabled. -/
def includedShunts (switches : Switches) (shunts : List Shunt) : List Shunt :=
  shunts.filter (fun sh => isIncluded switches sh.service)

/-- One call to `_update` (source lines 999-1431).  `failAt = some k` means
an exception is raised while iterating the device reads, after `k` devices
were read; `failAt = none` means all reads succeed.  If a pass is already in
progress the call returns immediately (no reads, no publish).  On a read
failure the trial counter is incremented and the pass is aborted without a
publish; when the incremented counter exceeds `READ_TRIALS` the process
exits non-zero after the configured delay.  On success the counter is reset
to its initial value 1 and the aggregate is committed in one atomic publish. -/
def update (cfg : Config) (failAt : Option ℕ) (s : AggState) : UpdateResult :=
  if s.updating then ⟨s, 0, 0, false⟩
  else
    match failAt with
    | Option.some k =>
      let trials := s.readTrials + 1
      if trials > cfg.READ_TRIALS then
        ⟨{ s with readTrials := trials, updating := false }, k, 0, true⟩
      else
        ⟨{ s with readTrials := trials, updating := false }, k, 0, false⟩
    | Option.none =>
      let outs := aggregate cfg.TOTAL_CAPACITY s.shunts s.shuntSwitches s.tempLow s.tempHigh
      ⟨{ s with readTrials := 1, updating := false, published := outs },
        (includedShunts s.shuntSwitches s.shunts).length, 1, false⟩

/-- C8.  Single-flight guard: whenever a pass is in progress
(`_updating = true`), a further trigger of `_update` returns immediately —
the state is unchanged, zero devices are read, zero publishes happen, and
the process does not exit. -/
theorem single_flight_guard (cfg : Config) (failAt : Option ℕ) (s : AggState)
    (h : s.updating = true) :
    update cfg failAt s = ⟨s, 0, 0, false⟩ := by
  simp [update, h]

/-- C8 witness: a concrete in-progress state dropping a trigger. -/
theorem single_flight_guard_witness :
    ∃ (cfg : Config) (s : AggState),
      s.updating = true ∧ update cfg Option.none s = ⟨s, 0, 0, false⟩ := by
  refine ⟨⟨10, 200⟩, ⟨true, 1, [], [], true, 10, 40.5,
    ⟨0, 0, 0, Option.none, 50, 0, BusVal.empty, 0, 0, 0, 0, 0, 0, 0, 0,
     Option.none, Option.none, Option.none, 0, 0, 0, 0, 0, 0, 0, 0, 0,
     BusVal.empty, BusVal.empty, 0, 0, 0, 0, 0, 0⟩⟩, rfl, ?_⟩
  exact single_flight_guard _ _ _ rfl

/-- C7.  Pass-level read-failure atomicity and recovery: when no pass is in
progress, a pass whose device iteration raises performs no publish, leaves
every published value unchanged, increments the consecutive read-trial
counter, clears the in-progress flag, and exits non-zero exactly when the
incremented counter exceeds the configured `READ_TRIALS`; a pass whose reads
all succeed resets the counter to its initial value 1 (so the full budget
applies again) and commits one publish, also clearing the flag. -/
theorem read_failure_spec (cfg : Config) (s : AggState) (k : ℕ)
    (h : s.updating = false) :
    ((update cfg (Option.some k) s).publishes = 0
   ∧ (update cfg (Option.some k) s).st.published = s.published
   ∧ (update cfg (Option.some k) s).st.readTrials = s.readTrials + 1
   ∧ (update cfg (Option.some k) s).st.updating = false
   ∧ ((update cfg (Option.some k) s).exited ↔ s.readTrials + 1 > cfg.READ_TRIALS))
  ∧ ((update cfg Option.none s).st.readTrials = 1
   ∧ (update cfg Option.none s).publishes = 1
   ∧ (update cfg Option.none s).st.updating = false
   ∧ (update cfg Option.none s).exited = false) := by
  constructor
  · by_cases hb : s.readTrials + 1 > cfg.READ_TRIALS
    · refine ⟨?_, ?_, ?_, ?_, ?_⟩ <;> simp [update, h, hb]
    · refine ⟨?_, ?_, ?_, ?_, ?_⟩ <;> simp [update, h, hb]
  · refine ⟨?_, ?_, ?_, ?_⟩ <;> simp [update, h]

/-- C7 witness: with `READ_TRIALS = 3` and the counter already at 3, a
failing pass publishes nothing, leaves the published voltage unchanged and
exits; a failing pass at counter 1 does not exit; a successful pass resets
the counter to 1. -/
theorem read_failure_spec_witness :
    ∃ (cfg : Config) (s : AggState),
      s.updating = false ∧ s.readTrials = 3 ∧ cfg.READ_TRIALS = 3
    ∧ (update cfg (Option.some 0) s).publishes = 0
    ∧ (update cfg (Option.some 0) s).st.published = s.published
    ∧ (update cfg (Option.some 0) s).exited = true
    ∧ (update cfg (Option.some 0) { s with readTrials := 1 }).exited = false
    ∧ (update cfg Option.none s).st.readTrials = 1 := by
  refine ⟨⟨3, 200⟩, ⟨false, 3, [], [], true, 10, 40.5,
    ⟨0, 0, 0, Option.none, 50, 0, BusVal.empty, 0, 0, 0, 0, 0, 0, 0, 0,
     Option.none, Option.none, Option.none, 0, 0, 0, 0, 0, 0, 0, 0, 0,
     BusVal.empty, BusVal.empty, 0, 0, 0, 0, 0, 0⟩⟩, rfl, rfl, rfl, ?_, ?_, ?_, ?_, ?_⟩
  · exact (read_failure_spec ⟨3, 200⟩ _ 0 rfl).1.1
  · exact (read_failure_spec ⟨3, 200⟩ _ 0 rfl).1.2.1
  · exact ((read_failure_spec ⟨3, 200⟩ _ 0 rfl).1.2.2.2.2).2 (by norm_num)
  · simp [update]
  · exact (read_failure_spec ⟨3, 200⟩ _ 0 rfl).2.1

/-- A snapshot with every reading absent. -/
def blankSnapshot : Snapshot :=
  ⟨Option.none, Option.none, Option.none, Option.none, Option.none, Option.none,
   Option.none, Option.none, Option.none, Option.none, Option.none, Option.none,
   Option.none, Option.none, Option.none, Option.none, Option.none, Option.none,
   Option.none, Option.none, Option.none, Option.none, Option.none, Option.none,
   Option.none, Option.none, Option.none, Option.none, Option.none, Option.none,
   Option.none, Option.none, Option.none, Option.none, Option.none⟩

/-- The inclusion predicate as the specification words it:
`included = discovery_enabled AND device.manual_enabled`. -/
def specIncluded (discoveryEnabled : Bool) (switches : Switches) (service : String) : Bool :=
  discoveryEnabled && isIncluded switches service

theorem collectReadings_eq_filterMap (switches : Switches) (f : Snapshot → Option ℚ) :
    ∀ shunts : List Shunt,
      collectReadings switches f shunts
        = (shunts.filter (fun sh => isIncluded switches sh.service)).filterMap
            (fun sh => f sh.snapshot) := by
  intro shunts
  induction shunts with
  | nil => rfl
  | cons sh rest ih =>
    by_cases hin : isIncluded switches sh.service
    · cases hv : f sh.snapshot with
      | none => simp [collectReadings, hin, hv, List.filter_cons, List.filterMap_cons, ih]
      | some v => simp [collectReadings, hin, hv, List.filter_cons, List.filterMap_cons, ih]
    · simp [collectReadings, hin, List.filter_cons, ih]

theorem collectReadings_drop_excluded (switches : Switches) (f : Snapshot → Option ℚ)
    (sh : Shunt) (h : isIncluded switches sh.service = false) :
    ∀ l1 l2 : List Shunt,
      collectReadings switches f (l1 ++ sh :: l2) = collectReadings switches f (l1 ++ l2) := by
  intro l1 l2
  induction l1 with
  | nil => simp [collectReadings, h]
  | cons a rest ih =>
    by_cases hin : isIncluded switches a.service
    · cases hv : f a.snapshot with
      | none => simp [collectReadings, hin, hv, ih]
      | some v => simp [collectReadings, hin, hv, ih]
    · simp [collectReadings, hin, ih]

theorem collectPosReadings_drop_excluded (switches : Switches) (f : Snapshot → Option ℚ)
    (sh : Shunt) (h : isIncluded switches sh.service = false) :
    ∀ l1 l2 : List Shunt,
      collectPosReadings switches f (l1 ++ sh :: l2)
        = collectPosReadings switches f (l1 ++ l2) := by
  intro l1 l2
  induction l1 with
  | nil => simp [collectPosReadings, h]
  | cons a rest ih =>
    by_cases hin : isIncluded switches a.service
    · cases hv : f a.snapshot with
      | none => simp [collectPosReadings, hin, hv, ih]
      | some v =>
        by_cases hp : (0 : ℚ) < v
        · simp [collectPosReadings, hin, hv, hp, ih]
        · simp [collectPosReadings, hin, hv, hp, ih]
    · simp [collectPosReadings, hin, ih]

theorem collectOrZero_drop_excluded (switches : Switches) (f : Snapshot → Option ℚ)
    (sh : Shunt) (h : isIncluded switches sh.service = false) :
    ∀ l1 l2 : List Shunt,
      collectOrZero switches f (l1 ++ sh :: l2) = collectOrZero switches f (l1 ++ l2) := by
  intro l1 l2
  induction l1 with
  | nil => simp [collectOrZero, h]
  | cons a rest ih =>
    by_cases hin : isIncluded switches a.service
    · simp [collectOrZero, hin, ih]
    · simp [collectOrZero, hin, ih]

theorem aggregate_drop_excluded (totalCap lt ht : ℚ) (switches : Switches)
    (sh : Shunt) (h : isIncluded switches sh.service = false) (l1 l2 : List Shunt) :
    aggregate totalCap (l1 ++ sh :: l2) switches lt ht
      = aggregate totalCap (l1 ++ l2) switches lt ht := by
  simp only [aggregate,
    collectReadings_drop_excluded switches _ sh h,
    collectPosReadings_drop_excluded switches _ sh h,
    collectOrZero_drop_excluded switches _ sh h]

theorem update_ignores_discovery (cfg : Config) (failAt : Option ℕ) (s : AggState) (b : Bool) :
    (update cfg failAt { s with discoveryEnabled := b }).st.published
      = (update cfg failAt s).st.published
  ∧ (update cfg failAt { s with discoveryEnabled := b }).publishes
      = (update cfg failAt s).publishes := by
  cases s with
  | mk u rt sh sw de tl th pub =>
    cases failAt with
    | none => by_cases hu : u <;> simp [update, hu]
    | some k =>
      by_cases hu : u
      · simp [update, hu]
      · by_cases hb : rt + 1 > cfg.READ_TRIALS <;> simp [update, hu, hb]

/-- C4 counterexample.  A present, reporting device whose switch is enabled
while the global discovery gate is off: the claim's inclusion rule
(`included = discovery_enabled AND manual_enabled`) predicts that the device
contributes zero readings, but the update loop — which never consults
`discovery_enabled` — collects its voltage reading. -/
theorem inclusion_policy_counterexample :
    collectReadings [("a", true)] Snapshot.voltage
        [⟨"a", { blankSnapshot with voltage := Option.some 13 }⟩] = [13]
  ∧ (([⟨"a", { blankSnapshot with voltage := Option.some 13 }⟩] : List Shunt).filter
        (fun sh => specIncluded false [("a", true)] sh.service)).filterMap
        (fun sh => sh.snapshot.voltage) = []
  ∧ ([13] : List ℚ) ≠ [] := by
  refine ⟨rfl, rfl, by decide⟩

/-- C4 amended.  Device inclusion in an aggregation pass is governed by the
per-device manual flag alone: a device whose switch is disabled contributes
zero readings to every combiner input list (removing it leaves the entire
aggregate output unchanged), the collected readings are exactly the present
readings of manually-enabled devices (a device with no created switch
counts as enabled), and the global `discovery_enabled` gate has no effect
on the pass — it only gates the discovery scan. -/
theorem inclusion_policy_amended (cfg : Config) (failAt : Option ℕ) (s : AggState) (b : Bool)
    (totalCap lt ht : ℚ) (switches : Switches) (sh : Shunt) (l1 l2 : List Shunt)
    (hex : isIncluded switches sh.service = false) :
    aggregate totalCap (l1 ++ sh :: l2) switches lt ht
      = aggregate totalCap (l1 ++ l2) switches lt ht
  ∧ (∀ (f : Snapshot → Option ℚ) (shunts : List Shunt),
      collectReadings switches f shunts
        = (shunts.filter (fun x => isIncluded switches x.service)).filterMap
            (fun x => f x.snapshot))
  ∧ (update cfg failAt { s with discoveryEnabled := b }).st.published
      = (update cfg failAt s).st.published := by
  exact ⟨aggregate_drop_excluded totalCap lt ht switches sh hex l1 l2,
    fun f shunts => collectReadings_eq_filterMap switches f shunts,
    (update_ignores_discovery cfg failAt s b).1⟩

/-- C4 amended witness: a disabled device with a 12 V reading next to an
enabled device with 13 V — the aggregate equals the one computed without
the disabled device: a single no-alarm 13 V reading averages to 13 V. -/
theorem inclusion_policy_amended_witness :
    isIncluded [("a", true), ("b", false)] "b" = false
  ∧ aggregate 200 [⟨"a", { blankSnapshot with voltage := Option.some 13 }⟩,
        ⟨"b", { blankSnapshot with voltage := Option.some 12 }⟩]
        [("a", true), ("b", false)] 10 40.5
      = aggregate 200 [⟨"a", { blankSnapshot with voltage := Option.some 13 }⟩]
        [("a", true), ("b", false)] 10 40.5
  ∧ (aggregate 200 [⟨"a", { blankSnapshot with voltage := Option.some 13 }⟩,
        ⟨"b", { blankSnapshot with voltage := Option.some 12 }⟩]
        [("a", true), ("b", false)] 10 40.5).dcVoltage = 13 := by
  have h := inclusion_policy_amended ⟨10, 200⟩ Option.none
    ⟨false, 1, [], [], true, 10, 40.5,
      ⟨0, 0, 0, Option.none, 50, 0, BusVal.empty, 0, 0, 0, 0, 0, 0, 0, 0,
       Option.none, Option.none, Option.none, 0, 0, 0, 0, 0, 0, 0, 0, 0,
       BusVal.empty, BusVal.empty, 0, 0, 0, 0, 0, 0⟩⟩ false 200 10 40.5
    [("a", true), ("b", false)]
    ⟨"b", { blankSnapshot with voltage := Option.some 12 }⟩
    [⟨"a", { blankSnapshot with voltage := Option.some 13 }⟩] [] rfl
  simp only [List.cons_append, List.nil_append, List.append_nil] at h
  refine ⟨rfl, h.1, ?_⟩
  rw [h.1]
  show selectVoltage [13] [] [] = 13
  simp [selectVoltage, anyActive, listMean]

theorem collectPosReadings_sound (switches : Switches) (f : Snapshot → Option ℚ) :
    ∀ (shunts : List Shunt) (v : ℚ), v ∈ collectPosReadings switches f shunts →
      0 < v ∧ ∃ sh ∈ shunts, isIncluded switches sh.service = true
        ∧ f sh.snapshot = Option.some v := by
  intro shunts
  induction shunts with
  | nil => intro v hv; simp [collectPosReadings] at hv
  | cons sh rest ih =>
    intro v hv
    by_cases hin : isIncluded switches sh.service
    · cases hval : f sh.snapshot with
      | none =>
        rw [collectPosReadings, if_pos hin, hval] at hv
        obtain ⟨hp, w, hw, hi, he⟩ := ih v hv
        exact ⟨hp, w, List.mem_cons_of_mem _ hw, hi, he⟩
      | some x =>
        by_cases hp : (0 : ℚ) < x
        · simp only [collectPosReadings, if_pos hin, hval, if_pos hp] at hv
          rcases List.mem_cons.1 hv with h1 | h1
          · subst h1
            exact ⟨hp, sh, List.mem_cons_self _ _, hin, hval⟩
          · obtain ⟨hp2, w, hw, hi, he⟩ := ih v h1
            exact ⟨hp2, w, List.mem_cons_of_mem _ hw, hi, he⟩
        · simp only [collectPosReadings, if_pos hin, hval, if_neg hp] at hv
          obtain ⟨hp2, w, hw, hi, he⟩ := ih v hv
          exact ⟨hp2, w, List.mem_cons_of_mem _ hw, hi, he⟩
    · rw [collectPosReadings, if_neg hin] at hv
      obtain ⟨hp, w, hw, hi, he⟩ := ih v hv
      exact ⟨hp, w, List.mem_cons_of_mem _ hw, hi, he⟩

theorem collectPosReadings_all_nonpos (switches : Switches) (f : Snapshot → Option ℚ) :
    ∀ shunts : List Shunt,
      (∀ sh ∈ shunts, ∀ v, f sh.snapshot = Option.some v → v ≤ 0) →
      collectPosReadings switches f shunts = [] := by
  intro shunts
  induction shunts with
  | nil => intro _; rfl
  | cons sh rest ih =>
    intro hall
    have hrest := ih (fun w hw v hv => hall w (List.mem_cons_of_mem _ hw) v hv)
    by_cases hin : isIncluded switches sh.service
    · cases hval : f sh.snapshot with
      | none => rw [collectPosReadings, if_pos hin, hval]; exact hrest
      | some x =>
        have hx : x ≤ 0 := hall sh (List.mem_cons_self _ _) x hval
        simp only [collectPosReadings, if_pos hin, hval, if_neg (not_lt_of_ge hx)]
        exact hrest
    · rw [collectPosReadings, if_neg hin]; exact hrest

/-- C10.  Starter-voltage aggregation edge case: every value entering the
min/max starter-voltage aggregate comes from an included device whose
reading is present and strictly positive; if every device's reading is
absent or non-positive the collected list is empty and the two aggregate
fields published from it are the empty-array sentinel `[]`, which is
distinct from both the invalid value and the number 0. -/
theorem starter_voltage_spec (totalCap lt ht : ℚ) (switches : Switches)
    (shunts : List Shunt)
    (hmin : ∀ sh ∈ shunts, ∀ v, sh.snapshot.histMinStarter = Option.some v → v ≤ 0)
    (hmax : ∀ sh ∈ shunts, ∀ v, sh.snapshot.histMaxStarter = Option.some v → v ≤ 0) :
    (∀ (f : Snapshot → Option ℚ) (v : ℚ), v ∈ collectPosReadings switches f shunts →
       0 < v ∧ ∃ sh ∈ shunts, isIncluded switches sh.service = true
         ∧ f sh.snapshot = Option.some v)
  ∧ (aggregate totalCap shunts switches lt ht).histMinStarter
      = minOrEmpty (collectPosReadings switches Snapshot.histMinStarter shunts)
  ∧ (aggregate totalCap shunts switches lt ht).histMaxStarter
      = maxOrEmpty (collectPosReadings switches Snapshot.histMaxStarter shunts)
  ∧ (aggregate totalCap shunts switches lt ht).histMinStarter = BusVal.empty
  ∧ (aggregate totalCap shunts switches lt ht).histMaxStarter = BusVal.empty
  ∧ BusVal.empty ≠ BusVal.none ∧ (∀ q : ℚ, BusVal.empty ≠ BusVal.num q) := by
  have e1 := collectPosReadings_all_nonpos switches Snapshot.histMinStarter shunts hmin
  have e2 := collectPosReadings_all_nonpos switches Snapshot.histMaxStarter shunts hmax
  refine ⟨fun f v hv => collectPosReadings_sound switches f shunts v hv,
    rfl, rfl, ?_, ?_, by decide, fun q => by simp⟩
  · show minOrEmpty (collectPosReadings switches Snapshot.histMinStarter shunts) = BusVal.empty
    rw [e1]; rfl
  · show maxOrEmpty (collectPosReadings switches Snapshot.histMaxStarter shunts) = BusVal.empty
    rw [e2]; rfl

/-- C10 witness: two devices, one with an absent starter-voltage history
and one reporting the non-positive placeholder 0 — the published
minimum/maximum starter-voltage aggregates are the empty sentinel. -/
theorem starter_voltage_spec_witness :
    (aggregate 200
        [⟨"a", blankSnapshot⟩,
         ⟨"b", { blankSnapshot with
                 histMinStarter := Option.some 0, histMaxStarter := Option.some 0 }⟩]
        [("a", true)] 10 40.5).histMinStarter = BusVal.empty
  ∧ (aggregate 200
        [⟨"a", blankSnapshot⟩,
         ⟨"b", { blankSnapshot with
                 histMinStarter := Option.some 0, histMaxStarter := Option.some 0 }⟩]
        [("a", true)] 10 40.5).histMaxStarter = BusVal.empty := by
  have h := starter_voltage_spec 200 10 40.5 [("a", true)]
    [⟨"a", blankSnapshot⟩,
     ⟨"b", { blankSnapshot with
             histMinStarter := Option.some 0, histMaxStarter := Option.some 0 }⟩]
    (by intro sh hsh v hv
        rcases List.mem_cons.1 hsh with h1 | h1
        · rw [h1] at hv; simp [blankSnapshot] at hv
        · rcases List.mem_cons.1 h1 with h2 | h2
          · rw [h2] at hv
            simp only [Option.some.injEq] at hv
            rw [← hv]
          · simp at h2)
    (by intro sh hsh v hv
        rcases List.mem_cons.1 hsh with h1 | h1
        · rw [h1] at hv; simp [blankSnapshot] at hv
        · rcases List.mem_cons.1 h1 with h2 | h2
          · rw [h2] at hv
            simp only [Option.some.injEq] at hv
            rw [← hv]
          · simp at h2)
  exact ⟨h.2.2.2.1, h.2.2.2.2.1⟩

/-- Configuration of the discovery scan: initial and maximum search
intervals (seconds) and the `SEARCH_TRIALS` budget. -/
structure FindConfig where
  initialInterval : ℕ
  maxInterval : ℕ
  searchTrialsMax : ℕ

/-- The discovery state machine's mutable fields as `_find_smartshunts`
touches them: the stored device set (service names of `self._shunts`), the
current search interval, `self._last_device_count`, the stability timestamp
`self._devices_stable_since` (`Option.none` for Python `None`), the search
trial counter, and the global discovery gate. -/
structure DiscoveryState where
  shunts : List String
  searchInterval : ℕ
  lastDeviceCount : ℕ
  stableSince : Option ℚ
  searchTrials : ℕ
  discoveryEnabled : Bool
deriving Repr, DecidableEq

/-- Outcome of one scan tick: the state afterwards, whether an immediate
aggregation pass was triggered, whether the process exited, and the
interval at which the next scan was explicitly rescheduled
(`Option.none` when the tick returned `True` to repeat at the old rate, or
exited). -/
structure FindResult where
  st : DiscoveryState
  updateTriggered : Bool
  exited : Bool
  rescheduledAt : Option ℕ
deriving Repr, DecidableEq

/-- The stability test of the backoff branch (source line 892): Python
`self._devices_stable_since and (tt.time() - self._devices_stable_since) >= 30`
— false when the timestamp is `None` (or the falsy 0.0), true when at least
30 seconds have elapsed since it. -/
def stableElapsed (now : ℚ) : Option ℚ → Bool
  | Option.some t => decide (t ≠ 0) && decide (30 ≤ now - t)
  | Option.none => false

/-- One tick of `_find_smartshunts` (source lines 817-918), with the scan
result `found` (the service names of the SmartShunts currently on the bus,
self excluded) and the current time `now` as inputs.  With discovery
disabled the tick only re-arms its timer.  The interval and stability timer
are reset when the stored set is non-empty and the found count differs from
its length; a non-empty found set is stored (and an immediate update pass
triggered) when the stored set was empty or the found count differs from
`_last_device_count`, else a 30-second-stable set doubles the interval up
to the maximum; an empty found set increments the trial counter and exits
once the budget is exhausted. -/
def findSmartshunts (cfg : FindConfig) (now : ℚ) (found : List String)
    (s : DiscoveryState) : FindResult :=
  if s.discoveryEnabled = false then
    ⟨s, false, false, Option.some s.searchInterval⟩
  else
    let s1 := if s.shunts ≠ [] ∧ found.length ≠ s.shunts.length then
                { s with
                  searchInterval := cfg.initialInterval
                  stableSince := Option.none }
              else s
    if 0 < found.length then
      if s1.shunts = [] ∨ found.length ≠ s1.lastDeviceCount then
        let s2 := { s1 with
                    shunts := found
                    lastDeviceCount := found.length
                    stableSince := Option.some now }
        ⟨s2, true, false, Option.some s2.searchInterval⟩
      else
        if stableElapsed now s1.stableSince then
          let s2 := { s1 with
                      searchInterval := min (s1.searchInterval * 2) cfg.maxInterval
                      stableSince := Option.some now }
          ⟨s2, false, false, Option.some s2.searchInterval⟩
        else ⟨s1, false, false, Option.some s1.searchInterval⟩
    else if s1.searchTrials < cfg.searchTrialsMax then
      ⟨{ s1 with searchTrials := s1.searchTrials + 1 }, false, false, Option.none⟩
    else
      ⟨s1, false, true, Option.none⟩

/-- C3 counterexample.  A same-size membership swap: the stored set is
`["A"]`, the scan finds `["B"]` — the membership changed, but because the
count is unchanged the tick neither resets the interval to its initial
value (it stays at 40, not 10) nor clears the stability timer; it does not
even store the new set. -/
theorem discovery_reset_counterexample :
    (["B"] : List String) ≠ ["A"]
  ∧ (findSmartshunts ⟨10, 1800, 10⟩ 110 ["B"]
       ⟨["A"], 40, 1, Option.some 100, 1, true⟩).st.searchInterval = 40
  ∧ (findSmartshunts ⟨10, 1800, 10⟩ 110 ["B"]
       ⟨["A"], 40, 1, Option.some 100, 1, true⟩).st.stableSince = Option.some 100
  ∧ (findSmartshunts ⟨10, 1800, 10⟩ 110 ["B"]
       ⟨["A"], 40, 1, Option.some 100, 1, true⟩).st.shunts = ["A"]
  ∧ (40 : ℕ) ≠ 10 ∧ Option.some (100 : ℚ) ≠ Option.none := by
  refine ⟨by decide, ?_, ?_, ?_, by decide, by simp⟩ <;>
    norm_num [findSmartshunts, stableElapsed]

/-- C3 amended.  The device-search interval is reset to its initial value
exactly when the previously stored set is non-empty and the found count
differs from its size; the stability timer is then cleared (and, when the
found set is non-empty, restarted at the scan time while the new set is
stored and an immediate pass is triggered).  A same-size membership change
resets nothing. -/
theorem discovery_reset_amended (cfg : FindConfig) (now : ℚ) (found : List String)
    (s : DiscoveryState) (hen : s.discoveryEnabled = true) (hne : s.shunts ≠ [])
    (hcount : found.length ≠ s.shunts.length)
    (hlast : s.lastDeviceCount = s.shunts.length) :
    (found ≠ [] →
       (findSmartshunts cfg now found s).st.searchInterval = cfg.initialInterval
     ∧ (findSmartshunts cfg now found s).st.stableSince = Option.some now
     ∧ (findSmartshunts cfg now found s).st.shunts = found
     ∧ (findSmartshunts cfg now found s).updateTriggered = true)
  ∧ (found = [] →
       (findSmartshunts cfg now found s).st.searchInterval = cfg.initialInterval
     ∧ (findSmartshunts cfg now found s).st.stableSince = Option.none) := by
  constructor
  · intro hfne
    have hlen : 0 < found.length := List.length_pos.2 hfne
    have hbranch : found.length ≠ s.lastDeviceCount := by rw [hlast]; exact hcount
    refine ⟨?_, ?_, ?_, ?_⟩ <;>
      simp [findSmartshunts, hen, hne, hcount, hlen, hbranch]
  · intro hfe
    subst hfe
    have h0 : ¬ (0 = s.shunts.length) :=
      fun h => hne (List.length_eq_zero.1 h.symm)
    by_cases ht : s.searchTrials < cfg.searchTrialsMax <;>
      constructor <;>
        simp [findSmartshunts, hen, hne, h0, ht]

/-- C3 amended witness: stored set `["A", "B"]`, scan finds only `["A"]` —
the count changed, so the interval drops back to 10 and the stability
window restarts at the scan time. -/
theorem discovery_reset_amended_witness :
    (findSmartshunts ⟨10, 1800, 10⟩ 110 ["A"]
        ⟨["A", "B"], 40, 2, Option.some 100, 1, true⟩).st.searchInterval = 10
  ∧ (findSmartshunts ⟨10, 1800, 10⟩ 110 ["A"]
        ⟨["A", "B"], 40, 2, Option.some 100, 1, true⟩).st.stableSince = Option.some 110
  ∧ (findSmartshunts ⟨10, 1800, 10⟩ 110 ["A"]
        ⟨["A", "B"], 40, 2, Option.some 100, 1, true⟩).st.shunts = ["A"] := by
  have h := (discovery_reset_amended ⟨10, 1800, 10⟩ 110 ["A"]
    ⟨["A", "B"], 40, 2, Option.some 100, 1, true⟩ rfl (by decide) (by decide) rfl).1
    (by decide)
  exact ⟨h.1, h.2.1, h.2.2.1⟩

/-- C9.  Discovery backoff: on a tick where the found set matches the
stored one in count and the set has been stable for at least 30 seconds,
the interval becomes `min (2 * interval) maximum` and the stability timer
restarts at the scan time; hence the interval never exceeds the configured
maximum and, as long as it was within the maximum, never decreases while
the set is unchanged. -/
theorem discovery_backoff_spec (cfg : FindConfig) (now t : ℚ) (found : List String)
    (s : DiscoveryState) (hen : s.discoveryEnabled = true) (hne : s.shunts ≠ [])
    (hcount : found.length = s.shunts.length) (hfne : found ≠ [])
    (hlast : s.lastDeviceCount = s.shunts.length)
    (hst : s.stableSince = Option.some t) (ht0 : t ≠ 0) (hdt : 30 ≤ now - t) :
    (findSmartshunts cfg now found s).st.searchInterval
      = min (s.searchInterval * 2) cfg.maxInterval
  ∧ (findSmartshunts cfg now found s).st.stableSince = Option.some now
  ∧ (findSmartshunts cfg now found s).st.searchInterval ≤ cfg.maxInterval
  ∧ (s.searchInterval ≤ cfg.maxInterval →
       s.searchInterval ≤ (findSmartshunts cfg now found s).st.searchInterval) := by
  have hnr : ¬ (s.shunts ≠ [] ∧ found.length ≠ s.shunts.length) := by
    intro hc; exact hc.2 hcount
  have hlen : 0 < found.length := List.length_pos.2 hfne
  have hb2 : ¬ (found.length ≠ s.lastDeviceCount) := by
    rw [hlast]; exact fun hc => hc hcount
  have hlen2 : 0 < s.shunts.length := by rwa [hcount] at hlen
  have hmain : (findSmartshunts cfg now found s).st.searchInterval
      = min (s.searchInterval * 2) cfg.maxInterval := by
    simp [findSmartshunts, stableElapsed, hen, hne, hcount, hlast, hlen, hlen2,
      hst, ht0, hdt]
  have hstab : (findSmartshunts cfg now found s).st.stableSince = Option.some now := by
    simp [findSmartshunts, stableElapsed, hen, hne, hcount, hlast, hlen, hlen2,
      hst, ht0, hdt]
  refine ⟨hmain, hstab, ?_, fun hle => ?_⟩
  · rw [hmain]; exact min_le_right _ _
  · rw [hmain]; exact le_min (by omega) hle

/-- C9 witness: initial interval 10, maximum 1800, an unchanged single
device stable through three consecutive 30-second windows: the interval
sequence is 10 → 20 → 40. -/
theorem discovery_backoff_spec_witness :
    (⟨["A"], 10, 1, Option.some 100, 1, true⟩ : DiscoveryState).searchInterval = 10
  ∧ (findSmartshunts ⟨10, 1800, 10⟩ 130 ["A"]
       ⟨["A"], 10, 1, Option.some 100, 1, true⟩).st.searchInterval = 20
  ∧ (findSmartshunts ⟨10, 1800, 10⟩ 160 ["A"]
       (findSmartshunts ⟨10, 1800, 10⟩ 130 ["A"]
          ⟨["A"], 10, 1, Option.some 100, 1, true⟩).st).st.searchInterval = 40 := by
  have h1 := discovery_backoff_spec ⟨10, 1800, 10⟩ 130 100 ["A"]
    ⟨["A"], 10, 1, Option.some 100, 1, true⟩ rfl (by decide) rfl (by decide) rfl rfl
    (by norm_num) (by norm_num)
  have hs1 : (findSmartshunts ⟨10, 1800, 10⟩ 130 ["A"]
      ⟨["A"], 10, 1, Option.some 100, 1, true⟩).st
      = ⟨["A"], 20, 1, Option.some 130, 1, true⟩ := by
    norm_num [findSmartshunts, stableElapsed]
  refine ⟨rfl, ?_, ?_⟩
  · rw [h1.1]; decide
  · rw [hs1]
    norm_num [findSmartshunts, stableElapsed]

/-- Python dict assignment
`self.shunt_switches[service_name]['enabled'] = new_enabled`. -/
def setEnabled (switches : Switches) (service : String) (v : Bool) : Switches :=
  switches.map (fun p => if p.1 = service then (p.1, v) else p)

/-- Result of invoking the per-shunt switch change callback: the switch
dictionary afterwards, the number of aggregation passes the call managed to
trigger, and whether the call raised an exception. -/
structure SwitchCallbackResult where
  switches : Switches
  passesTriggered : ℕ
  raised : Bool
deriving Repr, DecidableEq

/-- `_on_shunt_switch_changed` (source lines 699-716).  A numeric `value`
is truthy iff non-zero.  When the service has a switch and the flag
actually changes, the new flag is stored and persisted and the handler then
reaches `if not self._updating: self._update_values()` (line 714).  The
class defines no attribute `_update_values` — its update entry point is
`_update` — so that call raises `AttributeError` at the lookup, before any
aggregation pass can start: `raised` records this and `passesTriggered`
stays 0.  When a pass is in progress, or the flag is unchanged, or the
service is unknown, the handler returns normally having triggered
nothing. -/
def onShuntSwitchChanged (updating : Bool) (switches : Switches) (service : String)
    (value : ℚ) : SwitchCallbackResult :=
  let newEnabled := decide (value ≠ 0)
  match List.lookup service switches with
  | Option.none => ⟨switches, 0, false⟩
  | Option.some oldEnabled =>
    if oldEnabled ≠ newEnabled then
      let switches2 := setEnabled switches service newEnabled
      if updating = false then ⟨switches2, 0, true⟩
      else ⟨switches2, 0, false⟩
    else ⟨switches, 0, false⟩

/-- C2.  Evaluating the switch callback at the failing input: a device with
a created, enabled switch is toggled off while no pass is in progress.  The
flag is stored, but the callback raises (`AttributeError`: the class has no
`_update_values`) and triggers zero aggregation passes — not the one
immediate pass the specification requires. -/
theorem shunt_toggle_triggers_no_pass :
    (onShuntSwitchChanged false [("a", true)] "a" 0).passesTriggered = 0
  ∧ (onShuntSwitchChanged false [("a", true)] "a" 0).raised = true
  ∧ (onShuntSwitchChanged false [("a", true)] "a" 0).switches = [("a", false)]
  ∧ (0 : ℕ) ≠ 1 := by
  refine ⟨rfl, rfl, rfl, by decide⟩

end AggShunts
